import Mathlib

/-!
Verification development for the OptionCalculator pricing core.

The Python sources (src/logic/monte_carlo.py, option.py, american.py,
asian.py, barrier.py, european.py, src/utils/validators.py and
src/calculator.py) are shallowly embedded below.  Machine floats are
modelled by rationals; the transcendental library routines `np.exp`,
`np.sqrt`, `np.log`, `scipy.stats.norm.cdf` and `scipy.stats.norm.pdf`
are abstracted as function parameters (`rexp`, `rsqrt`, `rlog`,
`normcdf`, `normpdf`), and numpy's seeded pseudo-random generator is
abstracted as a deterministic stream `nrm : seed → index → value`
together with an explicit (seed, position) generator state, mirroring
`np.random.default_rng`.
-/

namespace OptionCalc

/-- Arithmetic mean of a list, `np.mean`: sum divided by length
(the sources only apply it to nonempty arrays). -/
def listMean (l : List ℚ) : ℚ := l.sum / l.length

/-- Maximum of a list, `np.max` along a path row
(the sources only apply it to nonempty arrays). -/
def listMax : List ℚ → ℚ
  | [] => 0
  | [a] => a
  | a :: b :: t => max a (listMax (b :: t))

/-- Minimum of a list, `np.min` along a path row
(the sources only apply it to nonempty arrays). -/
def listMin : List ℚ → ℚ
  | [] => 0
  | [a] => a
  | a :: b :: t => min a (listMin (b :: t))

/-- Python's substring test `needle in hay` on strings,
over the underlying character lists. -/
def containsSub (needle : List Char) : List Char → Bool
  | [] => needle.isEmpty
  | c :: t => needle.isPrefixOf (c :: t) || containsSub needle t

/-- Python's `str.lower()` (ASCII-relevant part), applied characterwise. -/
def strLower (s : String) : String := String.mk (s.data.map Char.toLower)

/-- State of `np.random.Generator`: the seed it was created from and the
number of pseudo-random draws already consumed.  The draw values
themselves come from the abstract stream `nrm`. -/
structure Gen where
  seed : ℤ
  pos : ℕ
  deriving Repr, DecidableEq

/-- `np.random.default_rng(seed)`: a fresh generator at position 0. -/
def defaultRng (s : ℤ) : Gen := ⟨s, 0⟩

section Core

variable (rexp rsqrt rlog normcdf normpdf : ℚ → ℚ) (nrm : ℤ → ℕ → ℚ)

/-- Entry `(i, t)` of the GBM price grid built by
`MonteCarloEngine.simulate_paths` when run with generator state `g` and
`N` paths over `M` steps: column 0 is `S0`, and column `t+1` multiplies
column `t` by `exp((r - q - σ²/2)·dt + σ·√dt·Z)` with `dt = T/M` and `Z`
the `(t·N + i)`-th standard-normal draw of the run (the code draws a
batch of `N` normals per time step, in path order). -/
def pathEntry (g : Gen) (N : ℕ) (S0 T r sigma q : ℚ) (M : ℕ) (i : ℕ) : ℕ → ℚ
  | 0 => S0
  | t + 1 =>
      pathEntry g N S0 T r sigma q M i t *
        rexp ((r - q - (1/2) * sigma ^ 2) * (T / M) +
          sigma * rsqrt (T / M) * nrm g.seed (g.pos + t * N + i))

/-- `MonteCarloEngine.simulate_paths`: the `N × (M+1)` grid of simulated
prices, one row per path, produced from generator state `g`. -/
def simulatePathsG (g : Gen) (N M : ℕ) (S0 T r sigma q : ℚ) : List (List ℚ) :=
  (List.range N).map fun i =>
    (List.range (M + 1)).map fun t => pathEntry rexp rsqrt nrm g N S0 T r sigma q M i t

end Core

/-- `MonteCarloEngine.__init__` fields: path count, step count, the seed,
and the instance-owned generator (`self.rng = np.random.default_rng(seed)`). -/
structure Engine where
  numSimulations : ℕ
  numSteps : ℕ
  seed : ℤ
  rng : Gen
  deriving Repr, DecidableEq

/-- `MonteCarloEngine(num_simulations, num_steps, seed)`: the constructor
creates an instance-specific generator from `seed` (no global state). -/
def mkEngine (n m : ℕ) (s : ℤ) : Engine := ⟨n, m, s, defaultRng s⟩

/-- `MonteCarloEngine.reset_rng`: replace the generator by a fresh
`np.random.default_rng(self.seed)`. -/
def resetRng (e : Engine) : Engine := { e with rng := defaultRng e.seed }

section Core2

variable (rexp rsqrt rlog normcdf normpdf : ℚ → ℚ) (nrm : ℤ → ℕ → ℚ)

/-- `self.rng.standard_normal(...)` consumption inside `simulate_paths`
advances the generator by `M·N` draws; this is the engine state after
one `simulate_paths` call. -/
def engineAfterSimulate (e : Engine) : Engine :=
  { e with rng := ⟨e.rng.seed, e.rng.pos + e.numSteps * e.numSimulations⟩ }

/-- `engine.simulate_paths(S0, T, r, sigma, q)` seen from the engine:
the grid produced from the engine's current generator state. -/
def engineSimulate (e : Engine) (S0 T r sigma q : ℚ) : List (List ℚ) :=
  simulatePathsG rexp rsqrt nrm e.rng e.numSimulations e.numSteps S0 T r sigma q

end Core2

/-- `np.polyval(coeffs, x)` for a degree-2 coefficient triple
(highest degree first, as numpy returns them). -/
def polyval2 (c : ℚ × ℚ × ℚ) (x : ℚ) : ℚ := c.1 * x ^ 2 + c.2.1 * x + c.2.2

/-- `np.polyfit(X, Y, 2)`: degree-2 least-squares fit, modelled by the
normal equations of the Vandermonde system solved by Cramer's rule
(exact for the full-rank case, which is the generic one; numpy's
rank-deficient SVD fallback is approximated by the zero triple — no
theorem below depends on that branch). -/
def polyfit2 (X Y : List ℚ) : ℚ × ℚ × ℚ :=
  let s0 : ℚ := X.length
  let s1 := X.sum
  let s2 := (X.map fun x => x ^ 2).sum
  let s3 := (X.map fun x => x ^ 3).sum
  let s4 := (X.map fun x => x ^ 4).sum
  let b0 := ((X.zip Y).map fun p => p.1 ^ 2 * p.2).sum
  let b1 := ((X.zip Y).map fun p => p.1 * p.2).sum
  let b2 := Y.sum
  let det := s4 * (s2 * s0 - s1 * s1) - s3 * (s3 * s0 - s1 * s2) + s2 * (s3 * s1 - s2 * s2)
  if det = 0 then (0, 0, 0)
  else
    ((b0 * (s2 * s0 - s1 * s1) - s3 * (b1 * s0 - b2 * s1) + s2 * (b1 * s1 - b2 * s2)) / det,
     (s4 * (b1 * s0 - b2 * s1) - b0 * (s3 * s0 - s1 * s2) + s2 * (s3 * b2 - b1 * s2)) / det,
     (s4 * (s2 * b2 - s1 * b1) - s3 * (s3 * b2 - s2 * b1) + b0 * (s3 * s1 - s2 * s2)) / det)

/-- Column `t` of a matrix stored as a row list (`m[:, t]`). -/
def matCol (m : List (List ℚ)) (t : ℕ) : List ℚ := m.map fun row => row.getD t 0

/-- `np.maximum(±(paths - K), 0)` elementwise: the intrinsic-value matrix
of `_lsm_pricing`; any `option_type` whose lowercase form is not
exactly `call` takes the put branch. -/
def intrinsicMatrix (ot : String) (K : ℚ) (paths : List (List ℚ)) : List (List ℚ) :=
  if strLower ot = "call" then paths.map fun row => row.map fun x => max (x - K) 0
  else paths.map fun row => row.map fun x => max (K - x) 0

/-- One iteration of the `_lsm_pricing` backward loop at a fixed step:
`Xcol` is the price column, `Icol` the intrinsic column, `cf` the cash
flows and `d = exp(-r·dt)`.  Mirrors the source: `discounted_cf` is a
fresh array; the in-place update `cash_flows[itm] = np.where(...)`
touches only in-the-money indices, so out-of-the-money indices keep
their previous, undiscounted value (`cd.1` below). -/
def lsmStep (Xcol Icol cf : List ℚ) (d : ℚ) : List ℚ :=
  let dcf := cf.map fun c => c * d
  let itmX := ((Xcol.zip Icol).filter fun p => decide (0 < p.2)).map fun p => p.1
  let itmY := ((dcf.zip Icol).filter fun p => decide (0 < p.2)).map fun p => p.1
  if 0 < itmX.length then
    let coeffs := polyfit2 itmX itmY
    List.zipWith3
      (fun x i cd => if 0 < i then (if polyval2 coeffs x < i then i else cd.2) else cd.1)
      Xcol Icol (cf.zip dcf)
  else cf

/-- The `for t in range(num_steps - 1, 0, -1)` loop of `_lsm_pricing`:
processes columns `t, t-1, ..., 1`. -/
def lsmBackward (paths intr : List (List ℚ)) (d : ℚ) : ℕ → List ℚ → List ℚ
  | 0, cf => cf
  | t + 1, cf =>
      lsmBackward paths intr d t (lsmStep (matCol paths (t + 1)) (matCol intr (t + 1)) cf d)

/-- The backward step as the spec (§4.4 step 4) describes it: every cash
flow is discounted one step, in-the-money paths then compare intrinsic
value against the regression estimate; with no in-the-money path the
discounted cash flows are carried forward unchanged.  Differs from
`lsmStep` exactly on the out-of-the-money / empty branches (`cd.2`
and `dcf` instead of `cd.1` and `cf`). -/
def lsmSpecStep (Xcol Icol cf : List ℚ) (d : ℚ) : List ℚ :=
  let dcf := cf.map fun c => c * d
  let itmX := ((Xcol.zip Icol).filter fun p => decide (0 < p.2)).map fun p => p.1
  let itmY := ((dcf.zip Icol).filter fun p => decide (0 < p.2)).map fun p => p.1
  if 0 < itmX.length then
    let coeffs := polyfit2 itmX itmY
    List.zipWith3
      (fun x i cd => if 0 < i then (if polyval2 coeffs x < i then i else cd.2) else cd.2)
      Xcol Icol (cf.zip dcf)
  else dcf

/-- The spec's backward induction built from `lsmSpecStep`. -/
def lsmSpecBackward (paths intr : List (List ℚ)) (d : ℚ) : ℕ → List ℚ → List ℚ
  | 0, cf => cf
  | t + 1, cf =>
      lsmSpecBackward paths intr d t (lsmSpecStep (matCol paths (t + 1)) (matCol intr (t + 1)) cf d)

section Pricing

variable (rexp rsqrt rlog normcdf normpdf : ℚ → ℚ) (nrm : ℤ → ℕ → ℚ)

/-- `MonteCarloEngine._lsm_pricing(paths, K, r, T, option_type)` with
`M = num_steps`: backward induction from step `M-1` down to 1, then one
final discount of the mean cash flow. -/
def lsmPricing (paths : List (List ℚ)) (K r T : ℚ) (ot : String) (M : ℕ) : ℚ :=
  let dt := T / M
  let intr := intrinsicMatrix ot K paths
  let cf0 := intr.map fun row => row.getLastD 0
  let cf := lsmBackward paths intr (rexp (-(r * dt))) (M - 1) cf0
  rexp (-(r * dt)) * listMean cf

/-- The American pricing routine as the spec (§4.4 steps 3-5) describes
it: identical to `lsmPricing` except that the backward induction uses
`lsmSpecStep`. -/
def lsmSpecPricing (paths : List (List ℚ)) (K r T : ℚ) (ot : String) (M : ℕ) : ℚ :=
  let dt := T / M
  let intr := intrinsicMatrix ot K paths
  let cf0 := intr.map fun row => row.getLastD 0
  let cf := lsmSpecBackward paths intr (rexp (-(r * dt))) (M - 1) cf0
  rexp (-(r * dt)) * listMean cf

/-- `MonteCarloEngine.price_american`: reset the generator, simulate,
run the LSM induction. -/
def priceAmericanE (e : Engine) (S0 K T r sigma q : ℚ) (ot : String) : ℚ :=
  let paths := simulatePathsG rexp rsqrt nrm (defaultRng e.seed)
    e.numSimulations e.numSteps S0 T r sigma q
  lsmPricing rexp paths K r T ot e.numSteps

/-- `MonteCarloEngine.price_asian`: reset the generator, simulate,
average each path (arithmetic exactly when `average_type == 'arithmetic'`,
otherwise exp of the mean log), apply the call/put payoff against `K`
and discount the mean payoff by `exp(-r·T)`. -/
def priceAsianE (e : Engine) (S0 K T r sigma q : ℚ) (ot avg : String) : ℚ :=
  let paths := simulatePathsG rexp rsqrt nrm (defaultRng e.seed)
    e.numSimulations e.numSteps S0 T r sigma q
  let avgPrices := if avg = "arithmetic" then paths.map listMean
    else paths.map fun row => rexp (listMean (row.map rlog))
  let payoffs := if strLower ot = "call" then avgPrices.map fun a => max (a - K) 0
    else avgPrices.map fun a => max (K - a) 0
  rexp (-(r * T)) * listMean payoffs

end Pricing

/-- Knock detection of `price_barrier` / `BarrierOption._price_from_paths`:
when `barrier_type` is in `['up-and-out', 'up-and-in']` the row maximum is
compared `≥ B`, in every other case the row minimum is compared `≤ B`. -/
def knockedRow (bt : String) (B : ℚ) (row : List ℚ) : Bool :=
  if bt = "up-and-out" ∨ bt = "up-and-in" then decide (B ≤ listMax row)
  else decide (listMin row ≤ B)

/-- Per-path payoff of `price_barrier` / `_price_from_paths`: vanilla
terminal payoff against `K`, zeroed by `np.where` according to the knock
status — knocked pays 0 when the substring `out` occurs in
`barrier_type`, otherwise only knocked paths pay.  (`BarrierOption`
stores `option_type.lower()`, so the lowercase comparison covers both
call sites.) -/
def barrierPayoffRow (ot bt : String) (K B : ℚ) (row : List ℚ) : ℚ :=
  let ST := row.getLastD 0
  let payoff := if strLower ot = "call" then max (ST - K) 0 else max (K - ST) 0
  if containsSub "out".data bt.data then (if knockedRow bt B row then 0 else payoff)
  else (if knockedRow bt B row then payoff else 0)

section Pricing2

variable (rexp rsqrt rlog normcdf normpdf : ℚ → ℚ) (nrm : ℤ → ℕ → ℚ)

/-- `BarrierOption._price_from_paths`: mean knocked-adjusted payoff over
the given path matrix, discounted by `exp(-r·T)`. -/
def priceFromPathsBarrier (paths : List (List ℚ)) (ot bt : String) (K B r T : ℚ) : ℚ :=
  rexp (-(r * T)) * listMean (paths.map fun row => barrierPayoffRow ot bt K B row)

/-- `MonteCarloEngine.price_barrier`: reset the generator, simulate, and
apply the same knock logic to the fresh paths. -/
def priceBarrierE (e : Engine) (S0 K T r sigma q : ℚ) (ot bt : String) (B : ℚ) : ℚ :=
  let paths := simulatePathsG rexp rsqrt nrm (defaultRng e.seed)
    e.numSimulations e.numSteps S0 T r sigma q
  rexp (-(r * T)) * listMean (paths.map fun row => barrierPayoffRow ot bt K B row)

/-- `AmericanOption.theta`: price at `T`, price at `max(T - bump, 1e-10)`
(each call is a full `price_american`, which itself resets the
generator first), difference divided by `bump`. -/
def thetaAmerican (e : Engine) (S K T r sigma q : ℚ) (ot : String) (bump : ℚ) : ℚ :=
  let priceNow := priceAmericanE rexp rsqrt nrm e S K T r sigma q ot
  let Tb := max (T - bump) (1 / 10000000000)
  let priceLater := priceAmericanE rexp rsqrt nrm e S K Tb r sigma q ot
  (priceLater - priceNow) / bump

/-- `AsianOption.theta`, same two-call scheme through `price_asian`. -/
def thetaAsian (e : Engine) (S K T r sigma q : ℚ) (ot avg : String) (bump : ℚ) : ℚ :=
  let priceNow := priceAsianE rexp rsqrt rlog nrm e S K T r sigma q ot avg
  let Tb := max (T - bump) (1 / 10000000000)
  let priceLater := priceAsianE rexp rsqrt rlog nrm e S K Tb r sigma q ot avg
  (priceLater - priceNow) / bump

/-- `BarrierOption.theta`, same two-call scheme through `price_barrier`. -/
def thetaBarrier (e : Engine) (S K T r sigma q : ℚ) (ot bt : String) (B bump : ℚ) : ℚ :=
  let priceNow := priceBarrierE rexp rsqrt nrm e S K T r sigma q ot bt B
  let Tb := max (T - bump) (1 / 10000000000)
  let priceLater := priceBarrierE rexp rsqrt nrm e S K Tb r sigma q ot bt B
  (priceLater - priceNow) / bump

/-- `Option._get_paths_with_params`: reset the generator to the seed,
then simulate with the (possibly bumped) parameters. -/
def getPathsWithParams (e : Engine) (S T r sigma q : ℚ) : List (List ℚ) :=
  simulatePathsG rexp rsqrt nrm (defaultRng e.seed)
    e.numSimulations e.numSteps S T r sigma q

/-- `Option.delta`: two-point central difference on `S`, both path sets
generated after a reset to the same seed, priced by the subclass's
`_price_from_paths` evaluator `F`. -/
def deltaFD (F : List (List ℚ) → ℚ) (e : Engine) (S T r sigma q bump : ℚ) : ℚ :=
  (F (getPathsWithParams rexp rsqrt nrm e (S + bump) T r sigma q) -
    F (getPathsWithParams rexp rsqrt nrm e (S - bump) T r sigma q)) / (2 * bump)

/-- `Option.gamma`: three-point central second difference on `S`. -/
def gammaFD (F : List (List ℚ) → ℚ) (e : Engine) (S T r sigma q bump : ℚ) : ℚ :=
  (F (getPathsWithParams rexp rsqrt nrm e (S + bump) T r sigma q) -
    2 * F (getPathsWithParams rexp rsqrt nrm e S T r sigma q) +
    F (getPathsWithParams rexp rsqrt nrm e (S - bump) T r sigma q)) / bump ^ 2

/-- `Option.vega`: central difference on `sigma`. -/
def vegaFD (F : List (List ℚ) → ℚ) (e : Engine) (S T r sigma q bump : ℚ) : ℚ :=
  (F (getPathsWithParams rexp rsqrt nrm e S T r (sigma + bump) q) -
    F (getPathsWithParams rexp rsqrt nrm e S T r (sigma - bump) q)) / (2 * bump)

/-- `Option.rho`: central difference on `r` (only the simulated paths see
the bumped rate; the evaluator `F` is applied unchanged). -/
def rhoFD (F : List (List ℚ) → ℚ) (e : Engine) (S T r sigma q bump : ℚ) : ℚ :=
  (F (getPathsWithParams rexp rsqrt nrm e S T (r + bump) sigma q) -
    F (getPathsWithParams rexp rsqrt nrm e S T (r - bump) sigma q)) / (2 * bump)

/-- Modelled from the spec: `src/logic/black_scholes.py` (class
`BlackScholesModel`, method `d1`) is imported by european.py but absent
from src/; spec §4.2 gives d1 = (ln(S/K) + (r − q + σ²/2)T)/(σ√T). -/
def bsD1 (S K T r sigma q : ℚ) : ℚ :=
  (rlog (S / K) + (r - q + sigma ^ 2 / 2) * T) / (sigma * rsqrt T)

/-- Modelled from the spec: d2 = d1 − σ√T (spec §4.2, for the missing
`BlackScholesModel.d2`). -/
def bsD2 (S K T r sigma q : ℚ) : ℚ :=
  bsD1 rlog rsqrt S K T r sigma q - sigma * rsqrt T

/-- `EuropeanOption.gamma`: 0 when `T ≤ 0`, else the analytic formula. -/
def gammaEu (S K T r sigma q : ℚ) : ℚ :=
  if T ≤ 0 then 0
  else (normpdf (bsD1 rlog rsqrt S K T r sigma q) * rexp (-(q * T))) / (S * sigma * rsqrt T)

/-- `EuropeanOption.vega`: 0 when `T ≤ 0`, else the analytic formula. -/
def vegaEu (S K T r sigma q : ℚ) : ℚ :=
  if T ≤ 0 then 0
  else S * normpdf (bsD1 rlog rsqrt S K T r sigma q) * rsqrt T * rexp (-(q * T))

/-- `EuropeanOption.theta`: 0 when `T ≤ 0`, else the analytic annual
theta divided by 365. -/
def thetaEu (ot : String) (S K T r sigma q : ℚ) : ℚ :=
  if T ≤ 0 then 0
  else
    let d1 := bsD1 rlog rsqrt S K T r sigma q
    let d2 := bsD2 rlog rsqrt S K T r sigma q
    (if strLower ot = "call" then
      -(S * normpdf d1 * sigma * rexp (-(q * T))) / (2 * rsqrt T) -
        r * K * rexp (-(r * T)) * normcdf d2 +
        q * S * rexp (-(q * T)) * normcdf d1
    else
      -(S * normpdf d1 * sigma * rexp (-(q * T))) / (2 * rsqrt T) +
        r * K * rexp (-(r * T)) * normcdf (-d2) -
        q * S * rexp (-(q * T)) * normcdf (-d1)) / 365

/-- `EuropeanOption.rho`: 0 when `T ≤ 0`, else the analytic formula. -/
def rhoEu (ot : String) (S K T r sigma q : ℚ) : ℚ :=
  if T ≤ 0 then 0
  else if strLower ot = "call" then
    K * T * rexp (-(r * T)) * normcdf (bsD2 rlog rsqrt S K T r sigma q)
  else
    -K * T * rexp (-(r * T)) * normcdf (-(bsD2 rlog rsqrt S K T r sigma q))

end Pricing2

/-- The `errors` list accumulated by `validate_option_params`:
one fixed message appended per offending field, in source order
(`r` is accepted unconditionally). -/
def optionParamErrors (S K T r sigma q : ℚ) : List String :=
  (if S ≤ 0 then ["Underlying price must be positive"] else []) ++
  (if K ≤ 0 then ["Strike price must be positive"] else []) ++
  (if T < 0 then ["TTM must be positive"] else []) ++
  (if sigma ≤ 0 then ["Volatility must be positive"] else []) ++
  (if q < 0 then ["Dividend yield must be positive"] else [])

/-- `validate_option_params(S, K, T, r, sigma, q)`: returns
`(False, "; ".join(errors))` when any check fails, `(True, None)`
otherwise. -/
def validateOptionParams (S K T r sigma q : ℚ) : Bool × Option String :=
  let errors := optionParamErrors S K T r sigma q
  if errors ≠ [] then (false, some (String.intercalate "; " errors))
  else (true, none)

/-- `validate_barrier_params(barrier_type, barrier_level, S)`. -/
def validateBarrierParams (bt : String) (B S : ℚ) : Bool × Option String :=
  if ¬ (strLower bt = "up-and-out" ∨ strLower bt = "up-and-in" ∨
        strLower bt = "down-and-out" ∨ strLower bt = "down-and-in") then
    (false, some "Invalid barrier_type. Must be one of: up-and-out, up-and-in, down-and-out, down-and-in")
  else if B ≤ 0 then (false, some "Barrier level must be positive")
  else if containsSub "up".data (strLower bt).data ∧ B ≤ S then
    (false, some "For up-barriers, barrier level must be > stock price")
  else if containsSub "down".data (strLower bt).data ∧ S ≤ B then
    (false, some "For down-barriers, barrier level must be < stock price")
  else (true, none)

/-- `validate_asian_params(average_type)`. -/
def validateAsianParams (avg : String) : Bool × Option String :=
  if ¬ (strLower avg = "arithmetic" ∨ strLower avg = "geometric") then
    (false, some "Invalid average_type. Must be one of: arithmetic, geometric")
  else (true, none)

/-- The configuration bundle consumed by `OptionCalculator.create_option`
(dictionary keys become fields; optional keys carry the source's
defaults). -/
structure Config where
  underlyingPrice : ℚ
  strikePrice : ℚ
  timeToMaturity : ℚ
  riskFreeRate : ℚ
  volatility : ℚ
  dividendYield : ℚ := 0
  optionType : String
  optionStyle : String
  numSimulations : ℕ := 10000
  numSteps : ℕ := 252
  seed : ℤ := 42
  averageType : String := "arithmetic"
  barrierType : String := ""
  barrierLevel : ℚ := 0

/-- The option objects `create_option` can construct (the constructor
arguments of the four `Option` subclasses). -/
inductive OptionInst where
  | european (S K T r sigma q : ℚ) (ot : String)
  | american (S K T r sigma q : ℚ) (ot : String) (n m : ℕ) (seed : ℤ)
  | asian (S K T r sigma q : ℚ) (ot avg : String) (n m : ℕ) (seed : ℤ)
  | barrier (S K T r sigma q : ℚ) (ot bt : String) (B : ℚ) (n m : ℕ) (seed : ℤ)
  deriving Repr, DecidableEq

/-- `OptionCalculator.create_option`: lowercase the selector strings,
validate the base parameters (raising `ValueError` — modelled as
`Except.error` — before any option object is constructed), then
dispatch on the style, running the style-specific validators for asian
and barrier before construction. -/
def createOption (cfg : Config) : Except String OptionInst :=
  let S := cfg.underlyingPrice
  let K := cfg.strikePrice
  let T := cfg.timeToMaturity
  let r := cfg.riskFreeRate
  let sigma := cfg.volatility
  let q := cfg.dividendYield
  let ot := strLower cfg.optionType
  let style := strLower cfg.optionStyle
  let v := validateOptionParams S K T r sigma q
  if v.1 = false then .error ("Invalid parameters: " ++ v.2.getD "")
  else if style = "european" then .ok (.european S K T r sigma q ot)
  else if style = "american" then
    .ok (.american S K T r sigma q ot cfg.numSimulations cfg.numSteps cfg.seed)
  else if style = "asian" then
    let va := validateAsianParams cfg.averageType
    if va.1 = false then .error ("Invalid Asian option parameters: " ++ va.2.getD "")
    else .ok (.asian S K T r sigma q ot cfg.averageType cfg.numSimulations cfg.numSteps cfg.seed)
  else if style = "barrier" then
    let bt := strLower cfg.barrierType
    let vb := validateBarrierParams bt cfg.barrierLevel S
    if vb.1 = false then .error ("Invalid barrier option parameters: " ++ vb.2.getD "")
    else .ok (.barrier S K T r sigma q ot bt cfg.barrierLevel
      cfg.numSimulations cfg.numSteps cfg.seed)
  else .error ("Invalid option style: " ++ style)

/-- The vanilla terminal payoff `max(±(S_T − K), 0)` of the spec (§4.3). -/
def vanillaTerminal (ot : String) (K : ℚ) (row : List ℚ) : ℚ :=
  if strLower ot = "call" then max (row.getLastD 0 - K) 0 else max (K - row.getLastD 0) 0

/-- The C3 grid property: `N` rows of length `M+1`, column 0 equal to
`S0`, the GBM one-step recurrence with `dt = T/M` constant, and a fresh
(injectively indexed) normal draw per path per step. -/
def gbmGridProp (rexp rsqrt : ℚ → ℚ) (nrm : ℤ → ℕ → ℚ) (g : Gen) (N M : ℕ)
    (S0 T r sigma q : ℚ) (i t : ℕ) : Prop :=
  let P := simulatePathsG rexp rsqrt nrm g N M S0 T r sigma q
  P.length = N ∧
  (P.getD i []).length = M + 1 ∧
  (P.getD i []).getD 0 0 = S0 ∧
  (P.getD i []).getD t 0 =
    (P.getD i []).getD (t - 1) 0 *
      rexp ((r - q - (1/2) * sigma ^ 2) * (T / M) +
        sigma * rsqrt (T / M) * nrm g.seed (g.pos + (t - 1) * N + i)) ∧
  (∀ i' t', i' < N → 1 ≤ t' → t' ≤ M →
    (t - 1) * N + i = (t' - 1) * N + i' → i = i' ∧ t = t')

/-- The C5 property: the four barrier kinds price as knock-filtered
vanilla terminal payoffs, and the engine-level `price_barrier` agrees
with `_price_from_paths` on freshly simulated paths. -/
def barrierGridProp (rexp rsqrt : ℚ → ℚ) (nrm : ℤ → ℕ → ℚ) (e : Engine)
    (paths : List (List ℚ)) (ot : String) (S0 K T r sigma q B : ℚ) : Prop :=
  (priceFromPathsBarrier rexp paths ot "up-and-out" K B r T =
    rexp (-(r * T)) * listMean (paths.map fun row =>
      if ∃ x ∈ row, B ≤ x then 0 else vanillaTerminal ot K row)) ∧
  (priceFromPathsBarrier rexp paths ot "up-and-in" K B r T =
    rexp (-(r * T)) * listMean (paths.map fun row =>
      if ∃ x ∈ row, B ≤ x then vanillaTerminal ot K row else 0)) ∧
  (priceFromPathsBarrier rexp paths ot "down-and-out" K B r T =
    rexp (-(r * T)) * listMean (paths.map fun row =>
      if ∃ x ∈ row, x ≤ B then 0 else vanillaTerminal ot K row)) ∧
  (priceFromPathsBarrier rexp paths ot "down-and-in" K B r T =
    rexp (-(r * T)) * listMean (paths.map fun row =>
      if ∃ x ∈ row, x ≤ B then vanillaTerminal ot K row else 0)) ∧
  (∀ bt, priceBarrierE rexp rsqrt nrm e S0 K T r sigma q ot bt B =
    priceFromPathsBarrier rexp
      (simulatePathsG rexp rsqrt nrm (defaultRng e.seed) e.numSimulations e.numSteps
        S0 T r sigma q) ot bt K B r T)

/-- The C10 property: below the facade's validators the engine silently
defaults unrecognized selector strings — any `avg` other than
`arithmetic` prices geometrically, a `bt₁` outside the up-kinds uses
down-barrier knock detection, a `bt₂` without the substring `out` uses
knock-in payoff logic, and any `ot` whose lowercase form is not `call`
is priced as a put in the LSM, Asian and barrier routines. -/
def silentDefaultsProp (rexp rsqrt rlog : ℚ → ℚ) (nrm : ℤ → ℕ → ℚ) (e : Engine)
    (paths : List (List ℚ)) (S0 K T r sigma q B : ℚ) (M : ℕ) (row : List ℚ)
    (avg ot ot₂ bt₁ bt₂ bt₃ : String) : Prop :=
  (priceAsianE rexp rsqrt rlog nrm e S0 K T r sigma q ot₂ avg =
    priceAsianE rexp rsqrt rlog nrm e S0 K T r sigma q ot₂ "geometric") ∧
  (knockedRow bt₁ B row = decide (listMin row ≤ B)) ∧
  (barrierPayoffRow ot₂ bt₂ K B row =
    if knockedRow bt₂ B row then
      (if strLower ot₂ = "call" then max (row.getLastD 0 - K) 0
       else max (K - row.getLastD 0) 0)
    else 0) ∧
  (lsmPricing rexp paths K r T ot M = lsmPricing rexp paths K r T "put" M) ∧
  (priceAsianE rexp rsqrt rlog nrm e S0 K T r sigma q ot avg =
    priceAsianE rexp rsqrt rlog nrm e S0 K T r sigma q "put" avg) ∧
  (priceBarrierE rexp rsqrt nrm e S0 K T r sigma q ot bt₃ B =
    priceBarrierE rexp rsqrt nrm e S0 K T r sigma q "put" bt₃ B)

/-! ### Helper lemmas -/

theorem getD_rangeMap {α : Type} (f : ℕ → α) (d : α) (n i : ℕ) (h : i < n) :
    ((List.range n).map f).getD i d = f i := by
  simp [List.getD, List.getElem?_map, List.getElem?_range h]

theorem le_listMax_iff : ∀ (row : List ℚ), row ≠ [] → ∀ B : ℚ,
    (B ≤ listMax row ↔ ∃ x ∈ row, B ≤ x)
  | [], h, _ => absurd rfl h
  | [a], _, B => by simp [listMax]
  | a :: b :: t, _, B => by
      rw [listMax, le_max_iff, le_listMax_iff (b :: t) (by simp) B]
      simp [List.mem_cons, or_assoc, exists_or]

theorem listMin_le_iff : ∀ (row : List ℚ), row ≠ [] → ∀ B : ℚ,
    (listMin row ≤ B ↔ ∃ x ∈ row, x ≤ B)
  | [], h, _ => absurd rfl h
  | [a], _, B => by simp [listMin]
  | a :: b :: t, _, B => by
      rw [listMin, min_le_iff, listMin_le_iff (b :: t) (by simp) B]
      constructor
      · rintro (h | ⟨x, hx, hBx⟩)
        · exact ⟨a, List.mem_cons_self a _, h⟩
        · exact ⟨x, List.mem_cons_of_mem a hx, hBx⟩
      · rintro ⟨x, hx, hBx⟩
        rcases List.mem_cons.mp hx with rfl | hx
        · exact Or.inl hBx
        · exact Or.inr ⟨x, hx, hBx⟩

/-- The draw-index map `(step, path) ↦ step·N + path` used by the
stream consumption in `simulate_paths` is injective for `path < N`. -/
theorem drawIndex_inj {N s t i j : ℕ} (hi : i < N) (hj : j < N)
    (h : s * N + i = t * N + j) : s = t ∧ i = j := by
  have hN : 0 < N := Nat.pos_of_ne_zero (by rintro rfl; exact absurd hi (by simp))
  have hmod : i = j := by
    have h1 := congrArg (· % N) h
    simpa [Nat.add_comm, Nat.add_mul_mod_self_right, Nat.mod_eq_of_lt hi,
      Nat.mod_eq_of_lt hj] using h1
  subst hmod
  have : s * N = t * N := by omega
  exact ⟨Nat.eq_of_mul_eq_mul_right hN this, rfl⟩

theorem strLower_put_ne_call : strLower "put" ≠ "call" := by decide

/-! ### Claims -/

/-- C1: the spec's LSM step discounts every cash flow before the exercise
decision, but `_lsm_pricing` writes `discounted_cf` back only at
in-the-money indices (`cash_flows[itm] = ...`), so a path that is
out-of-the-money at an intermediate step keeps its undiscounted cash
flow.  Witnessed at a one-path put (`paths = [[100, 105, 90]]`, `K = 100`,
`M = 2`, per-step discount factor `1/2`): the code returns `(1/2)·10 = 5`,
while the algorithm described by the claim returns `(1/2)·(1/2·10) = 5/2`. -/
theorem lsm_otm_path_keeps_undiscounted_cashflow :
    lsmPricing (fun _ => (1/2 : ℚ)) [[100, 105, 90]] 100 (1/10) 1 "put" 2 = 5 ∧
    lsmSpecPricing (fun _ => (1/2 : ℚ)) [[100, 105, 90]] 100 (1/10) 1 "put" 2 = 5 / 2 ∧
    (5 : ℚ) ≠ 5 / 2 := by
  refine ⟨?_, ?_, by norm_num⟩
  · norm_num [lsmPricing, lsmBackward, lsmStep, matCol, intrinsicMatrix, listMean,
      strLower_put_ne_call]
  · norm_num [lsmSpecPricing, lsmSpecBackward, lsmSpecStep, matCol, intrinsicMatrix,
      listMean, strLower_put_ne_call]

/-- C2: at a backward-induction step with zero in-the-money paths the code
does skip the regression and makes no exercise decision, but the cash
flows carried to the next step are the previous cash flows unchanged —
not, as the claim states, the one-step-discounted ones.  Witnessed at a
single-path step (`price column [105]`, `intrinsic column [0]`, cash flow
`[10]`, discount factor `1/2`): the code carries `[10]`, the claim's
described behaviour would carry `[10·(1/2)] = [5]`. -/
theorem lsm_no_itm_step_carries_undiscounted :
    lsmStep [105] [0] [10] (1/2) = [10] ∧
    lsmSpecStep [105] [0] [10] (1/2) = [10 * (1/2)] ∧
    lsmStep [105] [0] [10] (1/2) ≠ [10 * (1/2)] := by
  refine ⟨by decide, by norm_num [lsmSpecStep], by norm_num [lsmStep]⟩

/-- C3: `simulate_paths` returns an `N × (M+1)` grid whose column 0 is
`S0` in every row and whose entry `(i, t)` (for `1 ≤ t ≤ M`) equals entry
`(i, t-1)` times `exp((r - q - σ²/2)·dt + σ·√dt·Z)` with `dt = T/M`
and `Z` a fresh standard-normal draw per path per step (the draw index
`(t-1)·N + i` is injective over the grid). -/
theorem simulate_paths_gbm (rexp rsqrt : ℚ → ℚ) (nrm : ℤ → ℕ → ℚ) (g : Gen)
    (N M : ℕ) (S0 T r sigma q : ℚ) (i t : ℕ)
    (hi : i < N) (ht1 : 1 ≤ t) (htM : t ≤ M) :
    gbmGridProp rexp rsqrt nrm g N M S0 T r sigma q i t := by
  have hrow : (simulatePathsG rexp rsqrt nrm g N M S0 T r sigma q).getD i [] =
      (List.range (M + 1)).map fun s => pathEntry rexp rsqrt nrm g N S0 T r sigma q M i s := by
    rw [simulatePathsG]
    exact getD_rangeMap _ _ _ _ hi
  obtain ⟨s, rfl⟩ : ∃ s, t = s + 1 := ⟨t - 1, (Nat.succ_pred_eq_of_pos ht1).symm⟩
  refine ⟨?_, ?_, ?_, ?_, ?_⟩
  · simp [simulatePathsG]
  · rw [hrow]
    simp
  · rw [hrow, getD_rangeMap _ _ _ _ (Nat.succ_pos M)]
    rfl
  · rw [hrow, getD_rangeMap _ _ _ _ (by omega), getD_rangeMap _ _ _ _ (by omega)]
    simp only [Nat.add_sub_cancel]
    rfl
  · intro i' t' hi' ht1' htM' hidx
    obtain ⟨s', rfl⟩ : ∃ s', t' = s' + 1 := ⟨t' - 1, (Nat.succ_pred_eq_of_pos ht1').symm⟩
    simp only [Nat.add_sub_cancel] at hidx
    obtain ⟨hs, hij⟩ := drawIndex_inj hi hi' hidx
    exact ⟨hij, by omega⟩

theorem simulate_paths_gbm_witness :
    gbmGridProp id id (fun _ _ => 0) (defaultRng 0) 2 3 100 1 (1/20) (3/10) 0 1 2 :=
  simulate_paths_gbm id id (fun _ _ => 0) (defaultRng 0) 2 3 100 1 (1/20) (3/10) 0 1 2
    (by decide) (by decide) (by decide)

/-- C4: the simulator is deterministic and its generator is engine-local:
a freshly constructed engine and a reset engine hold the same generator
state `default_rng(seed)`; resetting after a simulation restores the
initial seeded state; and two reset engines with identical seed and
dimensions produce identical path grids for identical numeric inputs. -/
theorem simulate_paths_deterministic (rexp rsqrt : ℚ → ℚ) (nrm : ℤ → ℕ → ℚ)
    (n m : ℕ) (s : ℤ) (e e' : Engine) (S0 T r sigma q : ℚ)
    (hs : e.seed = e'.seed) (hn : e.numSimulations = e'.numSimulations)
    (hm : e.numSteps = e'.numSteps) :
    (mkEngine n m s).rng = defaultRng s ∧
    (resetRng e).rng = defaultRng e.seed ∧
    resetRng (engineAfterSimulate e) = resetRng e ∧
    engineSimulate rexp rsqrt nrm (resetRng e) S0 T r sigma q =
      engineSimulate rexp rsqrt nrm (resetRng e') S0 T r sigma q ∧
    engineSimulate rexp rsqrt nrm (resetRng (mkEngine n m s)) S0 T r sigma q =
      engineSimulate rexp rsqrt nrm (mkEngine n m s) S0 T r sigma q := by
  refine ⟨rfl, rfl, rfl, ?_, rfl⟩
  show simulatePathsG rexp rsqrt nrm (defaultRng e.seed) e.numSimulations e.numSteps
      S0 T r sigma q = _
  rw [hs, hn, hm]
  rfl

theorem simulate_paths_deterministic_witness :
    (mkEngine 3 4 7).rng = defaultRng 7 ∧
    (resetRng ⟨3, 4, 7, ⟨7, 99⟩⟩).rng = defaultRng (Engine.seed ⟨3, 4, 7, ⟨7, 99⟩⟩) ∧
    resetRng (engineAfterSimulate ⟨3, 4, 7, ⟨7, 99⟩⟩) = resetRng ⟨3, 4, 7, ⟨7, 99⟩⟩ ∧
    engineSimulate id id (fun _ _ => 1) (resetRng ⟨3, 4, 7, ⟨7, 99⟩⟩) 100 1 (1/20) (3/10) 0 =
      engineSimulate id id (fun _ _ => 1) (resetRng ⟨3, 4, 7, ⟨7, 0⟩⟩) 100 1 (1/20) (3/10) 0 ∧
    engineSimulate id id (fun _ _ => 1) (resetRng (mkEngine 3 4 7)) 100 1 (1/20) (3/10) 0 =
      engineSimulate id id (fun _ _ => 1) (mkEngine 3 4 7) 100 1 (1/20) (3/10) 0 :=
  simulate_paths_deterministic id id (fun _ _ => 1) 3 4 7
    ⟨3, 4, 7, ⟨7, 99⟩⟩ ⟨3, 4, 7, ⟨7, 0⟩⟩ 100 1 (1/20) (3/10) 0 rfl rfl rfl

theorem barrierPayoffRow_up_out (ot : String) (K B : ℚ) (row : List ℚ) (h : row ≠ []) :
    barrierPayoffRow ot "up-and-out" K B row =
      if ∃ x ∈ row, B ≤ x then 0 else vanillaTerminal ot K row := by
  rw [barrierPayoffRow, knockedRow, if_pos (Or.inl rfl), if_pos (by decide)]
  exact if_congr (by rw [decide_eq_true_eq]; exact le_listMax_iff row h B) rfl rfl

theorem barrierPayoffRow_up_in (ot : String) (K B : ℚ) (row : List ℚ) (h : row ≠ []) :
    barrierPayoffRow ot "up-and-in" K B row =
      if ∃ x ∈ row, B ≤ x then vanillaTerminal ot K row else 0 := by
  rw [barrierPayoffRow, knockedRow, if_pos (Or.inr rfl), if_neg (by decide)]
  exact if_congr (by rw [decide_eq_true_eq]; exact le_listMax_iff row h B) rfl rfl

theorem barrierPayoffRow_down_out (ot : String) (K B : ℚ) (row : List ℚ) (h : row ≠ []) :
    barrierPayoffRow ot "down-and-out" K B row =
      if ∃ x ∈ row, x ≤ B then 0 else vanillaTerminal ot K row := by
  rw [barrierPayoffRow, knockedRow,
    if_neg (show ¬("down-and-out" = "up-and-out" ∨ "down-and-out" = "up-and-in") by decide),
    if_pos (show containsSub "out".data "down-and-out".data = true by decide)]
  exact if_congr (by rw [decide_eq_true_eq]; exact listMin_le_iff row h B) rfl rfl

theorem barrierPayoffRow_down_in (ot : String) (K B : ℚ) (row : List ℚ) (h : row ≠ []) :
    barrierPayoffRow ot "down-and-in" K B row =
      if ∃ x ∈ row, x ≤ B then vanillaTerminal ot K row else 0 := by
  rw [barrierPayoffRow, knockedRow,
    if_neg (show ¬("down-and-in" = "up-and-out" ∨ "down-and-in" = "up-and-in") by decide),
    if_neg (show ¬containsSub "out".data "down-and-in".data = true by decide)]
  exact if_congr (by rw [decide_eq_true_eq]; exact listMin_le_iff row h B) rfl rfl

/-- C5: for every path matrix (with nonempty rows), the barrier payoff
evaluator knocks `up` kinds exactly when some grid point reaches or
exceeds `B` and `down` kinds exactly when some grid point reaches or
falls below `B` (full path, all columns); `-out` kinds zero knocked
paths and pay the vanilla terminal payoff otherwise, `-in` kinds pay
only knocked paths; the price is the mean payoff discounted by
`exp(-r·T)`, and `price_barrier` is that evaluator applied to freshly
simulated paths. -/
theorem barrier_price_knock_spec (rexp rsqrt : ℚ → ℚ) (nrm : ℤ → ℕ → ℚ) (e : Engine)
    (paths : List (List ℚ)) (ot : String) (S0 K T r sigma q B : ℚ)
    (hrow : ∀ row ∈ paths, row ≠ []) :
    barrierGridProp rexp rsqrt nrm e paths ot S0 K T r sigma q B := by
  refine ⟨?_, ?_, ?_, ?_, fun bt => rfl⟩
  · rw [priceFromPathsBarrier]
    congr 1
    exact congrArg listMean
      (List.map_congr_left fun row hr => barrierPayoffRow_up_out ot K B row (hrow row hr))
  · rw [priceFromPathsBarrier]
    congr 1
    exact congrArg listMean
      (List.map_congr_left fun row hr => barrierPayoffRow_up_in ot K B row (hrow row hr))
  · rw [priceFromPathsBarrier]
    congr 1
    exact congrArg listMean
      (List.map_congr_left fun row hr => barrierPayoffRow_down_out ot K B row (hrow row hr))
  · rw [priceFromPathsBarrier]
    congr 1
    exact congrArg listMean
      (List.map_congr_left fun row hr => barrierPayoffRow_down_in ot K B row (hrow row hr))

theorem barrier_price_knock_spec_witness :
    barrierGridProp id id (fun _ _ => 1) (mkEngine 1 1 0) [[100, 105]] "call"
      100 100 1 (1/20) (3/10) 0 103 :=
  barrier_price_knock_spec id id (fun _ _ => 1) (mkEngine 1 1 0) [[100, 105]] "call"
    100 100 1 (1/20) (3/10) 0 103 (by decide)

/-- C6: for the American, Asian and Barrier options, theta is not a CRN
finite difference on `T`: it is the difference of two independent full
pricing calls — one at `T`, one at `max(T - 1/365, 1e-10)` — divided by
the bump `1/365`; each pricing call performs its own reset, so the
result does not depend on the engine's current generator state. -/
theorem mc_theta_two_full_repricings (rexp rsqrt rlog : ℚ → ℚ) (nrm : ℤ → ℕ → ℚ)
    (e : Engine) (g : Gen) (S K T r sigma q B : ℚ) (ot avg bt : String) :
    (thetaAmerican rexp rsqrt nrm e S K T r sigma q ot (1/365) =
      (priceAmericanE rexp rsqrt nrm e S K (max (T - 1/365) (1/10000000000)) r sigma q ot -
        priceAmericanE rexp rsqrt nrm e S K T r sigma q ot) / (1/365)) ∧
    (thetaAsian rexp rsqrt rlog nrm e S K T r sigma q ot avg (1/365) =
      (priceAsianE rexp rsqrt rlog nrm e S K (max (T - 1/365) (1/10000000000)) r sigma q ot avg -
        priceAsianE rexp rsqrt rlog nrm e S K T r sigma q ot avg) / (1/365)) ∧
    (thetaBarrier rexp rsqrt nrm e S K T r sigma q ot bt B (1/365) =
      (priceBarrierE rexp rsqrt nrm e S K (max (T - 1/365) (1/10000000000)) r sigma q ot bt B -
        priceBarrierE rexp rsqrt nrm e S K T r sigma q ot bt B) / (1/365)) ∧
    (priceAmericanE rexp rsqrt nrm { e with rng := g } S K T r sigma q ot =
      priceAmericanE rexp rsqrt nrm e S K T r sigma q ot) ∧
    (priceAsianE rexp rsqrt rlog nrm { e with rng := g } S K T r sigma q ot avg =
      priceAsianE rexp rsqrt rlog nrm e S K T r sigma q ot avg) ∧
    (priceBarrierE rexp rsqrt nrm { e with rng := g } S K T r sigma q ot bt B =
      priceBarrierE rexp rsqrt nrm e S K T r sigma q ot bt B) :=
  ⟨rfl, rfl, rfl, rfl, rfl, rfl⟩

/-- C7: the Monte Carlo Greeks are central finite differences with CRN —
every bumped path set is generated from the generator reset to the same
seed (`defaultRng e.seed` on each side), so the runs differ only in the
bumped parameter; delta bumps `S` by 0.5, gamma is the three-point
second difference with bump 5, vega bumps `sigma` by 0.01, rho bumps
`r` by 0.01, each priced by the style's payoff evaluator `F`; none of
them depends on the engine's current generator state. -/
theorem greeks_crn_central_differences (rexp rsqrt : ℚ → ℚ) (nrm : ℤ → ℕ → ℚ)
    (F : List (List ℚ) → ℚ) (e : Engine) (g : Gen) (S T r sigma q : ℚ) :
    (deltaFD rexp rsqrt nrm F e S T r sigma q (1/2) =
      (F (simulatePathsG rexp rsqrt nrm (defaultRng e.seed) e.numSimulations e.numSteps
          (S + 1/2) T r sigma q) -
        F (simulatePathsG rexp rsqrt nrm (defaultRng e.seed) e.numSimulations e.numSteps
          (S - 1/2) T r sigma q)) / (2 * (1/2))) ∧
    (gammaFD rexp rsqrt nrm F e S T r sigma q 5 =
      (F (simulatePathsG rexp rsqrt nrm (defaultRng e.seed) e.numSimulations e.numSteps
          (S + 5) T r sigma q) -
        2 * F (simulatePathsG rexp rsqrt nrm (defaultRng e.seed) e.numSimulations e.numSteps
          S T r sigma q) +
        F (simulatePathsG rexp rsqrt nrm (defaultRng e.seed) e.numSimulations e.numSteps
          (S - 5) T r sigma q)) / 5 ^ 2) ∧
    (vegaFD rexp rsqrt nrm F e S T r sigma q (1/100) =
      (F (simulatePathsG rexp rsqrt nrm (defaultRng e.seed) e.numSimulations e.numSteps
          S T r (sigma + 1/100) q) -
        F (simulatePathsG rexp rsqrt nrm (defaultRng e.seed) e.numSimulations e.numSteps
          S T r (sigma - 1/100) q)) / (2 * (1/100))) ∧
    (rhoFD rexp rsqrt nrm F e S T r sigma q (1/100) =
      (F (simulatePathsG rexp rsqrt nrm (defaultRng e.seed) e.numSimulations e.numSteps
          S T (r + 1/100) sigma q) -
        F (simulatePathsG rexp rsqrt nrm (defaultRng e.seed) e.numSimulations e.numSteps
          S T (r - 1/100) sigma q)) / (2 * (1/100))) ∧
    (deltaFD rexp rsqrt nrm F { e with rng := g } S T r sigma q (1/2) =
      deltaFD rexp rsqrt nrm F e S T r sigma q (1/2)) ∧
    (gammaFD rexp rsqrt nrm F { e with rng := g } S T r sigma q 5 =
      gammaFD rexp rsqrt nrm F e S T r sigma q 5) ∧
    (vegaFD rexp rsqrt nrm F { e with rng := g } S T r sigma q (1/100) =
      vegaFD rexp rsqrt nrm F e S T r sigma q (1/100)) ∧
    (rhoFD rexp rsqrt nrm F { e with rng := g } S T r sigma q (1/100) =
      rhoFD rexp rsqrt nrm F e S T r sigma q (1/100)) :=
  ⟨rfl, rfl, rfl, rfl, rfl, rfl, rfl, rfl⟩

/-- C8: for every European option with `T ≤ 0`, the closed-form gamma,
vega, theta and rho are exactly 0. -/
theorem european_greeks_zero_at_expiry (rexp rsqrt rlog normcdf normpdf : ℚ → ℚ)
    (ot : String) (S K T r sigma q : ℚ) (hT : T ≤ 0) :
    gammaEu rexp rsqrt rlog normpdf S K T r sigma q = 0 ∧
    vegaEu rexp rsqrt rlog normpdf S K T r sigma q = 0 ∧
    thetaEu rexp rsqrt rlog normcdf normpdf ot S K T r sigma q = 0 ∧
    rhoEu rexp rsqrt rlog normcdf ot S K T r sigma q = 0 := by
  refine ⟨?_, ?_, ?_, ?_⟩ <;> simp [gammaEu, vegaEu, thetaEu, rhoEu, hT]

theorem european_greeks_zero_at_expiry_witness :
    ((0:ℚ) ≤ 0) ∧
    (gammaEu id id id id 100 100 0 (1/20) (3/10) 0 = 0 ∧
     vegaEu id id id id 100 100 0 (1/20) (3/10) 0 = 0 ∧
     thetaEu id id id id id "call" 100 100 0 (1/20) (3/10) 0 = 0 ∧
     rhoEu id id id id "call" 100 100 0 (1/20) (3/10) 0 = 0) :=
  ⟨le_refl 0,
    european_greeks_zero_at_expiry id id id id id "call" 100 100 0 (1/20) (3/10) 0 (le_refl 0)⟩

theorem optionParamErrors_ne_nil_iff (S K T r sigma q : ℚ) :
    optionParamErrors S K T r sigma q ≠ [] ↔
      (S ≤ 0 ∨ K ≤ 0 ∨ T < 0 ∨ sigma ≤ 0 ∨ q < 0) := by
  unfold optionParamErrors
  split_ifs <;> simp_all

theorem validateOptionParams_fst_iff (S K T r sigma q : ℚ) :
    (validateOptionParams S K T r sigma q).1 = false ↔
      optionParamErrors S K T r sigma q ≠ [] := by
  simp only [validateOptionParams]
  split_ifs with h <;> simp [h]

theorem mem_errors_S (S K T r sigma q : ℚ) :
    "Underlying price must be positive" ∈ optionParamErrors S K T r sigma q ↔ S ≤ 0 := by
  unfold optionParamErrors
  split_ifs <;> simp_all

theorem mem_errors_K (S K T r sigma q : ℚ) :
    "Strike price must be positive" ∈ optionParamErrors S K T r sigma q ↔ K ≤ 0 := by
  unfold optionParamErrors
  split_ifs <;> simp_all

theorem mem_errors_T (S K T r sigma q : ℚ) :
    "TTM must be positive" ∈ optionParamErrors S K T r sigma q ↔ T < 0 := by
  unfold optionParamErrors
  split_ifs <;> simp_all

theorem mem_errors_sigma (S K T r sigma q : ℚ) :
    "Volatility must be positive" ∈ optionParamErrors S K T r sigma q ↔ sigma ≤ 0 := by
  unfold optionParamErrors
  split_ifs <;> simp_all

theorem mem_errors_q (S K T r sigma q : ℚ) :
    "Dividend yield must be positive" ∈ optionParamErrors S K T r sigma q ↔ q < 0 := by
  unfold optionParamErrors
  split_ifs <;> simp_all

/-- C9: validation fails exactly when `S ≤ 0 ∨ K ≤ 0 ∨ T < 0 ∨ σ ≤ 0 ∨
q < 0` (so `T = 0` is accepted); the failure message is the join of one
fixed message per offending field; and `create_option` raises the
failure (as a `ValueError`, modelled `Except.error`) before any option
object is constructed, returning no partial result. -/
theorem validation_gate (S K T r sigma q : ℚ) (cfg : Config) :
    ((validateOptionParams S K T r sigma q).1 = false ↔
      (S ≤ 0 ∨ K ≤ 0 ∨ T < 0 ∨ sigma ≤ 0 ∨ q < 0)) ∧
    ((validateOptionParams S K T r sigma q).1 = false →
      (validateOptionParams S K T r sigma q).2 =
        some (String.intercalate "; " (optionParamErrors S K T r sigma q))) ∧
    (("Underlying price must be positive" ∈ optionParamErrors S K T r sigma q ↔ S ≤ 0) ∧
     ("Strike price must be positive" ∈ optionParamErrors S K T r sigma q ↔ K ≤ 0) ∧
     ("TTM must be positive" ∈ optionParamErrors S K T r sigma q ↔ T < 0) ∧
     ("Volatility must be positive" ∈ optionParamErrors S K T r sigma q ↔ sigma ≤ 0) ∧
     ("Dividend yield must be positive" ∈ optionParamErrors S K T r sigma q ↔ q < 0)) ∧
    (0 < S → 0 < K → 0 < sigma → 0 ≤ q →
      (validateOptionParams S K 0 r sigma q).1 = true) ∧
    ((validateOptionParams cfg.underlyingPrice cfg.strikePrice cfg.timeToMaturity
        cfg.riskFreeRate cfg.volatility cfg.dividendYield).1 = false →
      createOption cfg = .error ("Invalid parameters: " ++
        (validateOptionParams cfg.underlyingPrice cfg.strikePrice cfg.timeToMaturity
          cfg.riskFreeRate cfg.volatility cfg.dividendYield).2.getD "")) := by
  refine ⟨?_, ?_, ⟨mem_errors_S S K T r sigma q, mem_errors_K S K T r sigma q,
    mem_errors_T S K T r sigma q, mem_errors_sigma S K T r sigma q,
    mem_errors_q S K T r sigma q⟩, ?_, ?_⟩
  · rw [validateOptionParams_fst_iff]
    exact optionParamErrors_ne_nil_iff S K T r sigma q
  · intro h
    have he : optionParamErrors S K T r sigma q ≠ [] :=
      (validateOptionParams_fst_iff S K T r sigma q).mp h
    simp [validateOptionParams, he]
  · intro hS hK hsig hq
    cases hb : (validateOptionParams S K 0 r sigma q).1 with
    | true => rfl
    | false =>
        exfalso
        have := (validateOptionParams_fst_iff S K 0 r sigma q).mp hb
        rw [optionParamErrors_ne_nil_iff] at this
        rcases this with h | h | h | h | h <;> linarith
  · intro h
    simp only [createOption, h, if_pos]

theorem validation_gate_witness :
    (validateOptionParams (-1) 100 1 (1/20) (3/10) 0).1 = false ∧
    createOption ⟨-1, 100, 1, 1/20, 3/10, 0, "call", "european", 10000, 252, 42,
        "arithmetic", "", 0⟩ =
      .error ("Invalid parameters: " ++
        (validateOptionParams (-1) 100 1 (1/20) (3/10) 0).2.getD "") := by
  have h := validation_gate (-1) 100 1 (1/20) (3/10) 0
    ⟨-1, 100, 1, 1/20, 3/10, 0, "call", "european", 10000, 252, 42, "arithmetic", "", 0⟩
  have hf : (validateOptionParams (-1 : ℚ) 100 1 (1/20) (3/10) 0).1 = false :=
    h.1.mpr (Or.inl (by norm_num))
  exact ⟨hf, h.2.2.2.2 hf⟩

/-- C10: at the engine layer, unrecognized selector strings are silently
defaulted: any `average_type` other than exactly `arithmetic` prices
geometrically; any `barrier_type` outside the two up-kinds uses
down-barrier knock detection and any `barrier_type` without the
substring `out` uses knock-in payoff logic; and any `option_type` whose
lowercase form is not `call` is treated as a put by the LSM, Asian and
barrier pricing routines. -/
theorem engine_silent_defaults (rexp rsqrt rlog : ℚ → ℚ) (nrm : ℤ → ℕ → ℚ) (e : Engine)
    (paths : List (List ℚ)) (S0 K T r sigma q B : ℚ) (M : ℕ) (row : List ℚ)
    (avg ot ot₂ bt₁ bt₂ bt₃ : String)
    (havg : avg ≠ "arithmetic")
    (hb1 : bt₁ ≠ "up-and-out") (hb2 : bt₁ ≠ "up-and-in")
    (hout : containsSub "out".data bt₂.data = false)
    (hot : strLower ot ≠ "call") :
    silentDefaultsProp rexp rsqrt rlog nrm e paths S0 K T r sigma q B M row
      avg ot ot₂ bt₁ bt₂ bt₃ := by
  refine ⟨?_, ?_, ?_, ?_, ?_, ?_⟩
  · simp only [priceAsianE]
    rw [if_neg havg, if_neg (show ¬("geometric" = "arithmetic") by decide)]
  · rw [knockedRow, if_neg (by simp [hb1, hb2])]
  · simp only [barrierPayoffRow]
    rw [if_neg (show ¬(containsSub "out".data bt₂.data = true) by simp [hout])]
  · have hI : intrinsicMatrix ot K paths = intrinsicMatrix "put" K paths := by
      unfold intrinsicMatrix
      rw [if_neg hot, if_neg strLower_put_ne_call]
    simp only [lsmPricing]
    rw [hI]
  · simp only [priceAsianE]
    rw [if_neg hot, if_neg strLower_put_ne_call]
  · simp only [priceBarrierE, barrierPayoffRow]
    simp [hot, strLower_put_ne_call]

theorem engine_silent_defaults_witness :
    silentDefaultsProp id id id (fun _ _ => 1) (mkEngine 1 1 0) [[1]]
      100 100 1 (1/20) (3/10) 0 103 1 [1]
      "median" "Straddle" "CALL" "sideways" "down-and-in" "whatever" :=
  engine_silent_defaults id id id (fun _ _ => 1) (mkEngine 1 1 0) [[1]]
    100 100 1 (1/20) (3/10) 0 103 1 [1]
    "median" "Straddle" "CALL" "sideways" "down-and-in" "whatever"
    (by decide) (by decide) (by decide) (by decide) (by decide)

end OptionCalc

